import Mathlib

/-!
Shallow embedding of drivers/media/rc/sunxi-cir.c (sunxi IR remote control
driver), covering the constants, the interrupt drain routine sunxi_ir_irq,
the setup routine ir_setup, the stop routine ir_stop, and the probe/remove
lifecycle, together with theorems settling the specified properties.

Machine integers are modelled as Nat with explicit masking where the C code
masks; the u8 cast of a 32-bit FIFO read is modelled as `% 256`.  External
calls (clock, gpio, irq, mapping, rc-core) are modelled as trace actions so
that acquisition/release balance and ordering can be stated.
-/

namespace SunxiCir

/-! Constants, verbatim from the macro definitions in sunxi-cir.c. -/

def IR_CLOCK_RATE : Nat := 8000000

def IR_SAMPLE_CLK_SEL : Nat := 0

def IR_RXFILT_VAL : Nat := 1

def IR_RXIDLE_VAL : Nat := 29

def IR_FIFO_SIZE : Nat := 16

def IR_INVERT_INPUT : Nat := 1

def VALUE_MASK : Nat := 0x80

def PERIOD_MASK : Nat := 0x7f

/-- CIR_SAMPLE_HZ = IR_CLOCK_RATE / (64 << IR_SAMPLE_CLK_SEL). -/
def CIR_SAMPLE_HZ : Nat := IR_CLOCK_RATE / (64 <<< IR_SAMPLE_CLK_SEL)

/-- CIR_SAMPLE_PERIOD = 1000000000ul / CIR_SAMPLE_HZ, in nanoseconds. -/
def CIR_SAMPLE_PERIOD : Nat := 1000000000 / CIR_SAMPLE_HZ

/-! Register offsets. -/

def IR_CTRL_REG : Nat := 0x00

def IR_RXCFG_REG : Nat := 0x10

def IR_RXDAT_REG : Nat := 0x20

def IR_RXINTE_REG : Nat := 0x2C

def IR_RXINTS_REG : Nat := 0x30

def IR_SPLCFG_REG : Nat := 0x34

/-! Bits of the IR_RXINTS_REG register. -/

def IR_RXINTS_RXOF : Nat := 0x1 <<< 0

def IR_RXINTS_RXPE : Nat := 0x1 <<< 1

def IR_RXINTS_RXDA : Nat := 0x1 <<< 4

/-! Bits of the IR_CTRL_REG register. -/

def IRDA_MODE_CIR : Nat := 0x3 <<< 4

def IR_RX_EN : Nat := 0x1 <<< 1

def IR_GLOB_EN : Nat := 0x1 <<< 0

/-- Bit of IR_RXCFG_REG: IR_INVERT_EN = IR_INVERT_INPUT << 2. -/
def IR_INVERT_EN : Nat := IR_INVERT_INPUT <<< 2

/-! Bits of the IR_RXINTE_REG register. -/

def RPEI_EN : Nat := 0x1 <<< 0

def RISI_EN : Nat := 0x1 <<< 1

def RAI_EN : Nat := 0x1 <<< 4

/-! The interrupt drain routine sunxi_ir_irq. -/

/-- A raw IR event as filled in by the loop body of sunxi_ir_irq:
rawir.pulse and rawir.duration. -/
structure IrRawEvent where
  pulse : Bool
  duration : Nat
deriving DecidableEq

/-- The Event Sink interface of the spec: push is
ir_raw_event_store_with_filter, notifyIdle is ir_raw_event_set_idle,
notifyReset is ir_raw_event_reset.  (The per-iteration kick
ir_raw_event_handle is not part of this three-call interface.) -/
inductive SinkCall where
  | push : IrRawEvent → SinkCall
  | notifyIdle : SinkCall
  | notifyReset : SinkCall
deriving DecidableEq

/-- Return type of a Linux interrupt handler. -/
inductive Irqreturn where
  | IRQ_NONE : Irqreturn
  | IRQ_HANDLED : Irqreturn
  | IRQ_WAKE_THREAD : Irqreturn
deriving DecidableEq

/-- Trace action for one external call made by the driver: a register access
or a resource acquisition/release.  The source never calls clk_put, so no
such action exists. -/
inductive Act where
  | regRead : Nat → Act
  | regWrite : Nat → Nat → Act
  | gpioRequest : Act
  | gpioRelease : Act
  | clkGetApb : Act
  | clkGetIr : Act
  | clkSetRate : Nat → Act
  | clkEnableApb : Act
  | clkEnableIr : Act
  | clkDisableApb : Act
  | clkDisableIr : Act
  | requestIrq : Act
  | freeIrq : Act
  | ioremap : Act
  | iounmap : Act
  | rcAllocate : Act
  | rcFree : Act
  | rcRegister : Act
  | rcUnregister : Act
  | kzalloc : Act
  | kfree : Act
  | rawEventReset : Act
deriving DecidableEq

/-- Loop body of sunxi_ir_irq: gval = (u8)readl(RXDAT);
rawir.pulse = ((gval & VALUE_MASK) != 0);
rawir.duration = (gval & PERIOD_MASK) * CIR_SAMPLE_PERIOD. -/
def decodeSample (gval : Nat) : IrRawEvent :=
  { pulse := (gval &&& VALUE_MASK) != 0
    duration := (gval &&& PERIOD_MASK) * CIR_SAMPLE_PERIOD }

/-- The FIFO-draining for-loop of sunxi_ir_irq: starting at read index i,
perform n more FIFO reads, forwarding one event per byte read.
fifoRead k is the 32-bit value returned by the k-th readl of IR_RXDAT_REG
in this invocation; the C code casts it to u8. -/
def drainFifo (fifoRead : Nat → Nat) : Nat → Nat → List SinkCall
  | _, 0 => []
  | i, n + 1 =>
      SinkCall.push (decodeSample (fifoRead i % 256)) ::
        drainFifo fifoRead (i + 1) n

/-- Result of one invocation of sunxi_ir_irq: the register-access trace
(in program order), the sequence of Event Sink calls (in program order),
and the return value. -/
structure IrqOutput where
  regTrace : List Act
  calls : List SinkCall
  ret : Irqreturn

/-- The interrupt handler sunxi_ir_irq, as a function of the value intsta
returned by the single readl of IR_RXINTS_REG and of the values returned
by successive readl of IR_RXDAT_REG.  Mirrors the source: read status,
write back (intsta & 0xff), scnt = (intsta >> 8) & 0xff, drain scnt bytes,
then set_idle on RXPE, then reset on RXOF, return IRQ_HANDLED. -/
def sunxi_ir_irq (intsta : Nat) (fifoRead : Nat → Nat) : IrqOutput :=
  let scnt := (intsta >>> 8) &&& 0xff
  { regTrace :=
      [Act.regRead IR_RXINTS_REG, Act.regWrite IR_RXINTS_REG (intsta &&& 0xff)]
        ++ (List.range scnt).map (fun _ => Act.regRead IR_RXDAT_REG)
    calls :=
      drainFifo fifoRead 0 scnt
        ++ (if intsta &&& IR_RXINTS_RXPE ≠ 0 then [SinkCall.notifyIdle] else [])
        ++ (if intsta &&& IR_RXINTS_RXOF ≠ 0 then [SinkCall.notifyReset] else [])
    ret := Irqreturn.IRQ_HANDLED }

/-- Unfolding of the FIFO loop into an indexed map: the k-th of the n reads
starting at index i forwards the decode of byte fifoRead (i+k) % 256. -/
theorem drainFifo_eq_map (fifoRead : Nat → Nat) :
    ∀ (n i : Nat),
      drainFifo fifoRead i n =
        (List.range n).map
          (fun k => SinkCall.push (decodeSample (fifoRead (i + k) % 256))) := by
  intro n
  induction n with
  | zero => intro i; simp [drainFifo]
  | succ n ih =>
      intro i
      rw [List.range_succ_eq_map]
      simp only [drainFifo, List.map_cons, Nat.add_zero, List.map_map]
      refine congrArg (SinkCall.push (decodeSample (fifoRead i % 256)) :: ·) ?_
      rw [ih (i + 1)]
      refine congrArg (List.range n).map ?_
      funext k
      simp [Function.comp, Nat.add_comm, Nat.add_assoc, Nat.add_left_comm]

/-- Bool predicate selecting push calls among Event Sink calls. -/
def SinkCall.isPush : SinkCall → Bool
  | .push _ => true
  | _ => false

/-- Unfolding equation for the calls field of sunxi_ir_irq. -/
theorem sunxi_ir_irq_calls (intsta : Nat) (fifoRead : Nat → Nat) :
    (sunxi_ir_irq intsta fifoRead).calls =
      drainFifo fifoRead 0 ((intsta >>> 8) &&& 0xff)
        ++ (if intsta &&& IR_RXINTS_RXPE ≠ 0 then [SinkCall.notifyIdle] else [])
        ++ (if intsta &&& IR_RXINTS_RXOF ≠ 0 then [SinkCall.notifyReset] else []) :=
  rfl

/-- Unfolding equation for the register-access trace of sunxi_ir_irq. -/
theorem sunxi_ir_irq_regTrace (intsta : Nat) (fifoRead : Nat → Nat) :
    (sunxi_ir_irq intsta fifoRead).regTrace =
      [Act.regRead IR_RXINTS_REG,
       Act.regWrite IR_RXINTS_REG (intsta &&& 0xff)]
        ++ (List.range ((intsta >>> 8) &&& 0xff)).map
              (fun _ => Act.regRead IR_RXDAT_REG) :=
  rfl

/-- C1: for every FIFO byte b read in the interrupt drain routine (the i-th
read of an invocation with i below the available count), the forwarded pulse
event satisfies is_mark = ((b & 0x80) != 0), and duration_ns = ticks *
sample_period_ns with ticks = b & 0x7f, exactly, in integer arithmetic. -/
theorem fifo_byte_decoded_exactly (intsta : Nat) (fifoRead : Nat → Nat)
    (i : Nat) (hi : i < (intsta >>> 8) &&& 0xff) :
    ∃ ev : IrRawEvent,
      (sunxi_ir_irq intsta fifoRead).calls[i]? = some (SinkCall.push ev) ∧
      (ev.pulse = true ↔ (fifoRead i % 256) &&& 0x80 ≠ 0) ∧
      ev.duration = ((fifoRead i % 256) &&& 0x7f) * CIR_SAMPLE_PERIOD := by
  refine ⟨decodeSample (fifoRead i % 256), ?_, ?_, rfl⟩
  · rw [sunxi_ir_irq_calls, List.append_assoc]
    rw [drainFifo_eq_map]
    rw [List.getElem?_append_left (by simpa using hi)]
    simp [hi]
  · simp [decodeSample, VALUE_MASK]

/-- Witness for fifo_byte_decoded_exactly: intsta = 0x0100 reports one
available sample; the single byte 0x85 is pushed as a mark of 5 ticks. -/
theorem fifo_byte_decoded_exactly_witness :
    (0 : Nat) < (((0x0100 : Nat) >>> 8) &&& 0xff) ∧
    ∃ ev : IrRawEvent,
      (sunxi_ir_irq 0x0100 (fun _ => 0x85)).calls[0]? = some (SinkCall.push ev) ∧
      (ev.pulse = true ↔ ((0x85 : Nat) % 256) &&& 0x80 ≠ 0) ∧
      ev.duration = (((0x85 : Nat) % 256) &&& 0x7f) * CIR_SAMPLE_PERIOD :=
  ⟨by decide, fifo_byte_decoded_exactly 0x0100 (fun _ => 0x85) 0 (by decide)⟩

/-- C2: one invocation of the drain routine on a status word with available
count N delivers exactly N pushes, in FIFO order (the k-th push carries the
decode of the k-th byte read), followed by the notifyIdle for packet_end and
the notifyReset for overflow, which are therefore issued only after all N
pushes; the two bits are processed even when N = 0. -/
theorem drain_exactly_n_pushes_then_signals (intsta : Nat)
    (fifoRead : Nat → Nat) :
    (sunxi_ir_irq intsta fifoRead).calls =
      (List.range ((intsta >>> 8) &&& 0xff)).map
        (fun k => SinkCall.push (decodeSample (fifoRead k % 256)))
      ++ (if intsta &&& IR_RXINTS_RXPE ≠ 0 then [SinkCall.notifyIdle] else [])
      ++ (if intsta &&& IR_RXINTS_RXOF ≠ 0 then [SinkCall.notifyReset] else []) ∧
    ((sunxi_ir_irq intsta fifoRead).calls.countP SinkCall.isPush) =
      (intsta >>> 8) &&& 0xff := by
  constructor
  · rw [sunxi_ir_irq_calls, drainFifo_eq_map]
    simp
  · rw [sunxi_ir_irq_calls, drainFifo_eq_map]
    rw [List.countP_append, List.countP_append]
    have h1 : ∀ l : List Nat,
        (l.map (fun k => SinkCall.push (decodeSample (fifoRead (0 + k) % 256)))).countP
          SinkCall.isPush = l.length := by
      intro l
      rw [List.countP_map]
      simp [Function.comp, SinkCall.isPush, List.countP_true]
    rw [h1]
    rcases Decidable.em (intsta &&& IR_RXINTS_RXPE ≠ 0) with hpe | hpe <;>
      rcases Decidable.em (intsta &&& IR_RXINTS_RXOF ≠ 0) with hof | hof <;>
        simp [hpe, hof, SinkCall.isPush, List.countP_cons]

/-- C3 counterexample: for the status value 0x0201 (overflow set, available
count 2), the drain routine does not write back the value read unchanged: it
writes 0x0001 to IR_RXINTS_REG and never writes 0x0201. -/
theorem status_writeback_differs_from_read :
    (sunxi_ir_irq 0x0201 (fun _ => 0)).regTrace.count
        (Act.regWrite IR_RXINTS_REG 0x0201) = 0 ∧
    (sunxi_ir_irq 0x0201 (fun _ => 0)).regTrace.count
        (Act.regWrite IR_RXINTS_REG 0x0001) = 1 := by decide

/-- C3 amended: in every invocation the drain routine reads IR_RXINTS_REG
exactly once and writes it exactly once, the written value being the low
byte (value & 0xff) of the value read, so that every bit cleared by the
write was observed set in the read and no bit set between read and write is
cleared. -/
theorem status_read_once_writeback_low_byte (intsta : Nat)
    (fifoRead : Nat → Nat) :
    ((sunxi_ir_irq intsta fifoRead).regTrace.count
        (Act.regRead IR_RXINTS_REG)) = 1 ∧
    ((sunxi_ir_irq intsta fifoRead).regTrace.countP
        (fun a => match a with
          | Act.regWrite o _ => o == IR_RXINTS_REG
          | _ => false)) = 1 ∧
    ((sunxi_ir_irq intsta fifoRead).regTrace.count
        (Act.regWrite IR_RXINTS_REG (intsta &&& 0xff))) = 1 ∧
    intsta ||| (intsta &&& 0xff) = intsta := by
  refine ⟨?_, ?_, ?_, ?_⟩
  · rw [sunxi_ir_irq_regTrace, List.count_append]
    have h0 : ((List.range ((intsta >>> 8) &&& 0xff)).map
        (fun _ => Act.regRead IR_RXDAT_REG)).count
          (Act.regRead IR_RXINTS_REG) = 0 := by
      rw [List.count_eq_zero]
      intro hmem
      rcases List.mem_map.mp hmem with ⟨k, _, hk⟩
      simp [IR_RXDAT_REG, IR_RXINTS_REG] at hk
    rw [h0]
    rfl
  · rw [sunxi_ir_irq_regTrace, List.countP_append, List.countP_map]
    simp [Function.comp, List.countP_cons, IR_RXINTS_REG]
  · rw [sunxi_ir_irq_regTrace, List.count_append]
    have h0 : ((List.range ((intsta >>> 8) &&& 0xff)).map
        (fun _ => Act.regRead IR_RXDAT_REG)).count
          (Act.regWrite IR_RXINTS_REG (intsta &&& 0xff)) = 0 := by
      rw [List.count_eq_zero]
      intro hmem
      rcases List.mem_map.mp hmem with ⟨k, _, hk⟩
      exact Act.noConfusion hk
    rw [h0]
    simp [List.count_cons]
  · refine Nat.eq_of_testBit_eq (fun k => ?_)
    rw [Nat.testBit_or, Nat.testBit_and]
    cases intsta.testBit k <;> simp

/-- C7: with clock rate 8 MHz and divider 64 the sample period is 8000 ns;
byte 0x85 decodes to a mark of 40000 ns, byte 0x02 to a space of 16000 ns,
and the status word 0x0201 (overflow set, available count 2) yields exactly
two pushes followed by exactly one notifyReset. -/
theorem end_to_end_scenario :
    CIR_SAMPLE_PERIOD = 8000 ∧
    decodeSample 0x85 = { pulse := true, duration := 40000 } ∧
    decodeSample 0x02 = { pulse := false, duration := 16000 } ∧
    (sunxi_ir_irq 0x0201 (fun k => if k = 0 then 0x85 else 0x02)).calls =
      [SinkCall.push { pulse := true, duration := 40000 },
       SinkCall.push { pulse := false, duration := 16000 },
       SinkCall.notifyReset] := by decide

/-- C9: the drain routine returns IRQ_HANDLED for every status word and
every FIFO content, including a status word with no bits set. -/
theorem irq_always_returns_handled (intsta : Nat) (fifoRead : Nat → Nat) :
    (sunxi_ir_irq intsta fifoRead).ret = Irqreturn.IRQ_HANDLED := rfl

/-- C10: for every FIFO byte b the computed duration is an exact multiple
of the 8000 ns sample period, bounded by 127 * 8000 ns which fits a 32-bit
field, and it is zero exactly when the tick field b & 0x7f is zero. -/
theorem duration_multiple_and_bounded (b : Nat) :
    (decodeSample b).duration % CIR_SAMPLE_PERIOD = 0 ∧
    (decodeSample b).duration ≤ 127 * 8000 ∧
    127 * 8000 < 2 ^ 32 ∧
    ((decodeSample b).duration = 0 ↔ b &&& 0x7f = 0) := by
  have hper : CIR_SAMPLE_PERIOD = 8000 := by decide
  refine ⟨Nat.mul_mod_left _ _, ?_, by norm_num, ?_⟩
  · have h : b &&& PERIOD_MASK ≤ 127 := Nat.and_le_right
    show (b &&& PERIOD_MASK) * CIR_SAMPLE_PERIOD ≤ 127 * 8000
    rw [hper]
    exact Nat.mul_le_mul_right 8000 h
  · show (b &&& PERIOD_MASK) * CIR_SAMPLE_PERIOD = 0 ↔ b &&& 0x7f = 0
    rw [hper, Nat.mul_eq_zero]
    simp [PERIOD_MASK]

/-! Lifecycle: ir_setup, ir_stop, sunxi_ir_probe, sunxi_ir_remove.
External calls are recorded as trace actions; an Env of Booleans injects
the success/failure of every fallible external call.  Error codes follow
the source (-EINVAL, -EINTR, -ENOMEM, -EIO_CODE); where the source propagates a
callee's negative code verbatim (rc_register_device, request_irq) the model
uses -EINVAL, since only its sign is ever inspected. -/

def SUCCESS : Int := 0

def EINVAL : Int := 22

def EINTR : Int := 4

def ENOMEM : Int := 12

def EIO_CODE : Int := 5

/-- The fields of struct sunxi_ir_chip that the modelled code reads or
writes: gaddr and gpio_hdle as 0-or-nonzero handles, the two clock handles
and the rc device as null-or-not Booleans.  kzalloc zeroes all fields. -/
structure Chip where
  gaddr : Nat
  gpio_hdle : Nat
  apb_ir_clk : Bool
  ir_clk : Bool
  rcdev : Bool
deriving DecidableEq

/-- The all-zero chip as produced by kzalloc. -/
def chip0 : Chip :=
  { gaddr := 0, gpio_hdle := 0, apb_ir_clk := false, ir_clk := false
    rcdev := false }

/-- Fault-injection environment: one flag per fallible external call, in
program order of sunxi_ir_probe and ir_setup. -/
structure Env where
  kzallocOk : Bool
  rcAllocOk : Bool
  rcRegisterOk : Bool
  requestIrqOk : Bool
  ioremapOk : Bool
  gpioOk : Bool
  clkGetApbOk : Bool
  clkGetIrOk : Bool
  clkSetRateOk : Bool
  clkEnableApbOk : Bool
  clkEnableIrOk : Bool
deriving DecidableEq

/-- Value written to IR_SPLCFG_REG in ir_setup: divider selector, filter
threshold at bits 2..7, idle threshold at bits 8..15. -/
def SPLCFG_VAL : Nat :=
  IR_SAMPLE_CLK_SEL ||| ((IR_RXFILT_VAL &&& 0x3f) <<< 2)
    ||| ((IR_RXIDLE_VAL &&& 0xff) <<< 8)

/-- Value written to IR_RXINTE_REG in ir_setup:
RPEI_EN | RISI_EN | RAI_EN | (((IR_FIFO_SIZE >> 1) - 1) << 8). -/
def RXINTE_VAL : Nat :=
  (RPEI_EN ||| RISI_EN ||| RAI_EN) ||| (((IR_FIFO_SIZE >>> 1) - 1) <<< 8)

/-- ir_setup: request the pin, get the two clocks, set the module clock
rate, enable both clocks, then program the registers and enable the module.
Each failing step returns its error immediately, releasing nothing itself;
successful external acquisitions are recorded in the trace.  The final
read-modify-write of IR_CTRL_REG reads back the IRDA_MODE_CIR value written
earlier in the same call. -/
def ir_setup (env : Env) (c : Chip) : Int × Chip × List Act :=
  let c1 : Chip := { c with gpio_hdle := if env.gpioOk then 1 else 0 }
  if c1.gpio_hdle = 0 then (-EINVAL, c1, []) else
  let c2 : Chip := { c1 with apb_ir_clk := env.clkGetApbOk }
  if c2.apb_ir_clk = false then (-EINVAL, c2, [Act.gpioRequest]) else
  let c3 : Chip := { c2 with ir_clk := env.clkGetIrOk }
  if c3.ir_clk = false then
    (-EINVAL, c3, [Act.gpioRequest, Act.clkGetApb]) else
  if env.clkSetRateOk = false then
    (-EINTR, c3, [Act.gpioRequest, Act.clkGetApb, Act.clkGetIr]) else
  if env.clkEnableApbOk = false then
    (-EINTR, c3, [Act.gpioRequest, Act.clkGetApb, Act.clkGetIr,
      Act.clkSetRate IR_CLOCK_RATE]) else
  if env.clkEnableIrOk = false then
    (-EINTR, c3, [Act.gpioRequest, Act.clkGetApb, Act.clkGetIr,
      Act.clkSetRate IR_CLOCK_RATE, Act.clkEnableApb]) else
  (SUCCESS, c3,
    [Act.gpioRequest, Act.clkGetApb, Act.clkGetIr,
     Act.clkSetRate IR_CLOCK_RATE, Act.clkEnableApb, Act.clkEnableIr,
     Act.regWrite IR_CTRL_REG IRDA_MODE_CIR,
     Act.regWrite IR_SPLCFG_REG SPLCFG_VAL,
     Act.regWrite IR_RXCFG_REG IR_INVERT_EN,
     Act.regWrite IR_RXINTS_REG 0xff,
     Act.regWrite IR_RXINTE_REG RXINTE_VAL,
     Act.regRead IR_CTRL_REG,
     Act.regWrite IR_CTRL_REG (IRDA_MODE_CIR ||| IR_GLOB_EN ||| IR_RX_EN)])

/-- ir_stop: disable interrupts, clear status, disable the module, disable
each clock whose handle is non-null, release the pin unconditionally.  The
chip fields are not modified. -/
def ir_stop (c : Chip) : List Act :=
  [Act.regWrite IR_RXINTE_REG 0, Act.regWrite IR_RXINTS_REG 0xff,
   Act.regWrite IR_CTRL_REG 0]
    ++ (if c.ir_clk then [Act.clkDisableIr] else [])
    ++ (if c.apb_ir_clk then [Act.clkDisableApb] else [])
    ++ [Act.gpioRelease]

/-- sunxi_ir_probe: allocate, register the rc device, request the irq, map
the registers, reset the raw-event state, run ir_setup; on any failure,
unwind through the goto ladder (err_setup: ir_stop; iounmap; err_map:
free_irq; err_irq: rc_unregister; err_register: rc_free; err_allocate:
kfree) and surface the error with no live chip. -/
def sunxi_ir_probe (env : Env) : Int × Option Chip × List Act :=
  if env.kzallocOk = false then (-ENOMEM, none, []) else
  if env.rcAllocOk = false then
    (-ENOMEM, none, [Act.kzalloc, Act.kfree]) else
  if env.rcRegisterOk = false then
    (-EINVAL, none, [Act.kzalloc, Act.rcAllocate, Act.rcFree, Act.kfree]) else
  if env.requestIrqOk = false then
    (-EINVAL, none, [Act.kzalloc, Act.rcAllocate, Act.rcRegister,
      Act.rcUnregister, Act.rcFree, Act.kfree]) else
  if env.ioremapOk = false then
    (-EIO_CODE, none, [Act.kzalloc, Act.rcAllocate, Act.rcRegister,
      Act.requestIrq, Act.freeIrq, Act.rcUnregister, Act.rcFree,
      Act.kfree]) else
  let c : Chip := { chip0 with rcdev := true, gaddr := 1 }
  let pre := [Act.kzalloc, Act.rcAllocate, Act.rcRegister, Act.requestIrq,
    Act.ioremap, Act.rawEventReset]
  let s := ir_setup env c
  if s.1 ≠ SUCCESS then
    (s.1, none, pre ++ s.2.2 ++ ir_stop s.2.1
      ++ [Act.iounmap, Act.freeIrq, Act.rcUnregister, Act.rcFree, Act.kfree])
  else
    (SUCCESS, some s.2.1, pre ++ s.2.2)

/-- sunxi_ir_remove: ir_stop, iounmap, free_irq, rc_unregister_device,
rc_free_device, kfree, in that order.  No chip field is cleared or guarded,
so the trace depends only on the (unchanged) handle. -/
def sunxi_ir_remove (c : Chip) : List Act :=
  ir_stop c
    ++ [Act.iounmap, Act.freeIrq, Act.rcUnregister, Act.rcFree, Act.kfree]

/-! Resource accounting over a trace: each counter is the number of
acquisitions minus the number of releases of that resource.  Zero means
balanced; positive means leaked; negative means released more often than
acquired (double release, or release of something never acquired). -/

structure Res where
  gpio : Int
  apbGot : Int
  irGot : Int
  apbEn : Int
  irEn : Int
  irq : Int
  mapped : Int
  rcReg : Int
  rcAlloc : Int
  mem : Int
deriving DecidableEq

def Res.zero : Res :=
  { gpio := 0, apbGot := 0, irGot := 0, apbEn := 0, irEn := 0, irq := 0
    mapped := 0, rcReg := 0, rcAlloc := 0, mem := 0 }

def applyAct (r : Res) : Act → Res
  | Act.gpioRequest => { r with gpio := r.gpio + 1 }
  | Act.gpioRelease => { r with gpio := r.gpio - 1 }
  | Act.clkGetApb => { r with apbGot := r.apbGot + 1 }
  | Act.clkGetIr => { r with irGot := r.irGot + 1 }
  | Act.clkEnableApb => { r with apbEn := r.apbEn + 1 }
  | Act.clkEnableIr => { r with irEn := r.irEn + 1 }
  | Act.clkDisableApb => { r with apbEn := r.apbEn - 1 }
  | Act.clkDisableIr => { r with irEn := r.irEn - 1 }
  | Act.requestIrq => { r with irq := r.irq + 1 }
  | Act.freeIrq => { r with irq := r.irq - 1 }
  | Act.ioremap => { r with mapped := r.mapped + 1 }
  | Act.iounmap => { r with mapped := r.mapped - 1 }
  | Act.rcAllocate => { r with rcAlloc := r.rcAlloc + 1 }
  | Act.rcFree => { r with rcAlloc := r.rcAlloc - 1 }
  | Act.rcRegister => { r with rcReg := r.rcReg + 1 }
  | Act.rcUnregister => { r with rcReg := r.rcReg - 1 }
  | Act.kzalloc => { r with mem := r.mem + 1 }
  | Act.kfree => { r with mem := r.mem - 1 }
  | _ => r

def runTrace (acts : List Act) : Res := acts.foldl applyAct Res.zero

/-- The environment in which every external call succeeds. -/
def envAllOk : Env :=
  { kzallocOk := true, rcAllocOk := true, rcRegisterOk := true
    requestIrqOk := true, ioremapOk := true, gpioOk := true
    clkGetApbOk := true, clkGetIrOk := true, clkSetRateOk := true
    clkEnableApbOk := true, clkEnableIrOk := true }

/-- Fault injection at the clk_set_rate step of ir_setup. -/
def envRateFail : Env := { envAllOk with clkSetRateOk := false }

/-- The chip handle produced by a fully successful probe. -/
def chipRun : Chip :=
  { gaddr := 1, gpio_hdle := 1, apb_ir_clk := true, ir_clk := true
    rcdev := true }

/-- Sanity: the fully successful probe returns SUCCESS and the chipRun
handle. -/
theorem probe_envAllOk_succeeds :
    (sunxi_ir_probe envAllOk).1 = SUCCESS ∧
    (sunxi_ir_probe envAllOk).2.1 = some chipRun := by decide

/-- C4: when clk_set_rate fails after the pin request and both clk_get
calls succeeded, probe surfaces -EINTR with no live chip, the pin and the
irq/map/memory resources are balanced, but the unwind leaves both gotten
clock handles held (the driver never calls clk_put) and issues clk_disable
on both clocks although neither was ever enabled, driving both enable
balances to -1: the acquisition is not fully released as claimed. -/
theorem setup_rate_failure_leaves_clock_handles_held :
    (sunxi_ir_probe envRateFail).1 = -EINTR ∧
    (sunxi_ir_probe envRateFail).2.1 = none ∧
    (runTrace (sunxi_ir_probe envRateFail).2.2).gpio = 0 ∧
    (runTrace (sunxi_ir_probe envRateFail).2.2).apbGot = 1 ∧
    (runTrace (sunxi_ir_probe envRateFail).2.2).irGot = 1 ∧
    (runTrace (sunxi_ir_probe envRateFail).2.2).apbEn = -1 ∧
    (runTrace (sunxi_ir_probe envRateFail).2.2).irEn = -1 ∧
    (runTrace (sunxi_ir_probe envRateFail).2.2).irq = 0 ∧
    (runTrace (sunxi_ir_probe envRateFail).2.2).mapped = 0 ∧
    (runTrace (sunxi_ir_probe envRateFail).2.2).mem = 0 := by decide

/-- C5: in both teardown paths — the normal remove on the handle of a
successful probe, and the setup-failure unwind inside probe — iounmap
occurs strictly before free_irq in the trace, so the register block is
unmapped while the interrupt handler is still registered; the claimed
deregister-before-unmap order does not hold in the code. -/
theorem teardown_unmaps_before_freeing_irq :
    Act.iounmap ∈ sunxi_ir_remove chipRun ∧
    Act.freeIrq ∈ sunxi_ir_remove chipRun ∧
    (sunxi_ir_remove chipRun).indexOf Act.iounmap <
      (sunxi_ir_remove chipRun).indexOf Act.freeIrq ∧
    Act.iounmap ∈ (sunxi_ir_probe envRateFail).2.2 ∧
    Act.freeIrq ∈ (sunxi_ir_probe envRateFail).2.2 ∧
    (sunxi_ir_probe envRateFail).2.2.indexOf Act.iounmap <
      (sunxi_ir_probe envRateFail).2.2.indexOf Act.freeIrq := by decide

/-- C6 counterexample: remove clears no field and keeps no guard, so a
second remove call on the same handle performs every release again: after
a successful probe one remove leaves the pin, mapping, irq and memory
balances at 0, but a second remove drives them all to -1 — a double
release of the pin, mapping, interrupt registration and memory, refuting
that the second call releases nothing. -/
theorem second_teardown_double_releases :
    (sunxi_ir_probe envAllOk).2.1 = some chipRun ∧
    (runTrace ((sunxi_ir_probe envAllOk).2.2
        ++ sunxi_ir_remove chipRun)).gpio = 0 ∧
    (runTrace ((sunxi_ir_probe envAllOk).2.2
        ++ sunxi_ir_remove chipRun)).mapped = 0 ∧
    (runTrace ((sunxi_ir_probe envAllOk).2.2
        ++ sunxi_ir_remove chipRun)).irq = 0 ∧
    (runTrace ((sunxi_ir_probe envAllOk).2.2
        ++ sunxi_ir_remove chipRun)).mem = 0 ∧
    (runTrace ((sunxi_ir_probe envAllOk).2.2 ++ sunxi_ir_remove chipRun
        ++ sunxi_ir_remove chipRun)).gpio = -1 ∧
    (runTrace ((sunxi_ir_probe envAllOk).2.2 ++ sunxi_ir_remove chipRun
        ++ sunxi_ir_remove chipRun)).mapped = -1 ∧
    (runTrace ((sunxi_ir_probe envAllOk).2.2 ++ sunxi_ir_remove chipRun
        ++ sunxi_ir_remove chipRun)).irq = -1 ∧
    (runTrace ((sunxi_ir_probe envAllOk).2.2 ++ sunxi_ir_remove chipRun
        ++ sunxi_ir_remove chipRun)).mem = -1 := by decide

/-- C6 amended: the teardown transition is not idempotent — every call on a
given handle, first or repeated, performs exactly one pin release, one
unmap, one interrupt deregistration and one memory free, because remove is
a function of the unchanged handle fields only; it must therefore be
invoked exactly once per handle. -/
theorem teardown_releases_every_time (c : Chip) :
    (sunxi_ir_remove c).count Act.gpioRelease = 1 ∧
    (sunxi_ir_remove c).count Act.iounmap = 1 ∧
    (sunxi_ir_remove c).count Act.freeIrq = 1 ∧
    (sunxi_ir_remove c).count Act.kfree = 1 := by
  rcases c with ⟨g, h, a, i, r⟩
  cases a <;> cases i <;> exact ⟨rfl, rfl, rfl, rfl⟩

/-- C8 counterexample: the single value written to IR_RXINTE_REG by
ir_setup carries (IR_FIFO_SIZE >> 1) - 1 = 7 in its threshold field (bits
8 and up), not half the FIFO depth 8 as claimed. -/
theorem rxinte_threshold_field_not_half_depth :
    (ir_setup envAllOk chip0).2.2.count
        (Act.regWrite IR_RXINTE_REG RXINTE_VAL) = 1 ∧
    RXINTE_VAL >>> 8 = 7 ∧
    IR_FIFO_SIZE / 2 = 8 ∧
    ¬ RXINTE_VAL >>> 8 = IR_FIFO_SIZE / 2 := by decide

/-- C8 amended: setup writes to the interrupt-enable register a value that
enables the packet-end, illegal-symbol and FIFO-available interrupts and
sets the threshold field (bits 8 and up) to half the FIFO depth minus one,
i.e. 7 for the 16-byte FIFO, so the available interrupt fires once the
level exceeds 7, that is at half the depth. -/
theorem rxinte_enables_and_threshold_value :
    (ir_setup envAllOk chip0).2.2.count
        (Act.regWrite IR_RXINTE_REG RXINTE_VAL) = 1 ∧
    RXINTE_VAL &&& RPEI_EN = RPEI_EN ∧
    RXINTE_VAL &&& RISI_EN = RISI_EN ∧
    RXINTE_VAL &&& RAI_EN = RAI_EN ∧
    RXINTE_VAL >>> 8 = (IR_FIFO_SIZE >>> 1) - 1 := by decide

end SunxiCir
